import Mathlib

/-!
# Event.h : Track, EventHeader and Event records

A shallow embedding of the inline member functions of `root/meta/Event.h`.

* Every data member of the three classes is a field of the corresponding
  structure, so that "nothing else changes" is an equality of whole records.
* A `const` member function is a pure function of the record; a non-`const`
  member function returns its result together with the record it leaves behind.
* `Int_t` is written `Int` (the header performs no arithmetic on it; the one
  narrowing store, into `Short_t`, is `toShort`), `UChar_t` by `Fin 256`.
* A fixed C array `T a[n]` is a function `Fin n → T`; a heap block reached
  through a pointer is the list of its elements (a null pointer has none).
* A subscript whose index is not guarded by the types is evaluated to an
  `Access`, which records whether storage was read and whether the read was
  inside the array.
-/

namespace EventH

/-! ## Types the header takes from the ROOT library -/

/-- The library types that `Event.h` uses without declaring them, together with
the two conversions the inline bodies rely on. -/
structure RootTypes where
  /-- The type `Float_t`. -/
  Float_t : Type
  /-- The type `Double32_t` (a `double` in memory). -/
  Double32_t : Type
  /-- The bit set class `TBits`. -/
  TBits : Type
  /-- The reference array class `TRefArray`. -/
  TRefArray : Type
  /-- The reference class `TRef`. -/
  TRef : Type
  /-- The histogram class `TH1F`. -/
  TH1F : Type
  /-- The integer literal `0` converted to `Double32_t`. -/
  zero : Double32_t
  /-- The implicit conversion from `Double32_t` to `Float_t`. -/
  narrow : Double32_t → Float_t

/-- The type `UChar_t`: an unsigned 8-bit value. -/
abbrev UChar_t := Fin 256

/-- The type `UInt_t`: an unsigned 32-bit value. -/
abbrev UInt_t := Fin 4294967296

/-- Conversion of an integer to `Short_t` (16 bits, two's complement): the
value congruent to `v` modulo `2^16` that lies in `[-32768, 32767]`. -/
def toShort (v : Int) : Int := (v + 32768) % 65536 - 32768

/-! ## Array subscripts -/

/-- Outcome of evaluating an expression that may subscript an array. -/
inductive Access (α : Type) where
  /-- The value was produced without reading the array. -/
  | const (v : α)
  /-- The value was read from an element inside the array. -/
  | elem (v : α)
  /-- The subscript was outside the array: there is no defined value. -/
  | fault
  deriving DecidableEq, Repr

/-- Apply a value conversion to the outcome of a subscript. -/
def Access.map {α β : Type} (f : α → β) : Access α → Access β
  | .const v => .const (f v)
  | .elem v => .elem (f v)
  | .fault => .fault

/-- The expression `a[i]` for a fixed array `T a[n]` and a signed index. -/
def subscript {α : Type} {n : Nat} (a : Fin n → α) (i : Int) : Access α :=
  if h : 0 ≤ i ∧ i.toNat < n then .elem (a ⟨i.toNat, h.2⟩) else .fault

/-- The expression `p[i]` for a pointer `p` to a heap block and a signed
index. -/
def subscriptPtr {α : Type} (p : List α) (i : Int) : Access α :=
  if 0 ≤ i then
    match p.get? i.toNat with
    | some v => .elem v
    | none => .fault
  else .fault

/-! ## Track -/

/-- Data members of `class Track`. -/
structure Track (R : RootTypes) where
  fPx : R.Float_t
  fPy : R.Float_t
  fPz : R.Float_t
  fRandom : R.Float_t
  fMass2 : R.Float_t
  fBx : R.Float_t
  fBy : R.Float_t
  fMeanCharge : R.Float_t
  fXfirst : R.Float_t
  fXlast : R.Float_t
  fYfirst : R.Float_t
  fYlast : R.Float_t
  fZfirst : R.Float_t
  fZlast : R.Float_t
  fCharge : R.Double32_t
  fVertex : Fin 3 → R.Double32_t
  fNpoint : Int
  /-- A `Short_t`: always stored through `toShort`. -/
  fValid : Int
  fNsp : Int
  /-- The block `fPointValue` points to. -/
  fPointValue : List R.Double32_t
  fTriggerBits : R.TBits

namespace Track

variable {R : RootTypes}

/-- Source: `Double32_t GetVertex(Int_t i=0) {return (i<3)?fVertex[i]:0;}` -/
def GetVertex (t : Track R) (i : Int) : Access R.Double32_t × Track R :=
  (if i < 3 then subscript t.fVertex i else .const R.zero, t)

/-- Source: `Short_t GetValid() const { return fValid; }` -/
def GetValid (t : Track R) : Int := t.fValid

/-- Source: `virtual void SetValid(Int_t valid=1) { fValid = valid; }` -/
def SetValid (t : Track R) (valid : Int) : Track R :=
  { t with fValid := toShort valid }

/-- The call `SetValid()`, which passes the default argument `valid=1`. -/
def SetValidDefault (t : Track R) : Track R := SetValid t 1

/-- Source: `Int_t GetN() const { return fNsp; }` -/
def GetN (t : Track R) : Int := t.fNsp

/-- Source: `Double32_t GetPointValue(Int_t i=0) const { return (i<fNsp)?fPointValue[i]:0; }` -/
def GetPointValue (t : Track R) (i : Int) : Access R.Double32_t :=
  if i < t.fNsp then subscriptPtr t.fPointValue i else .const R.zero

end Track

/-! ## EventHeader -/

/-- Data members of `class EventHeader`. -/
structure EventHeader where
  fEvtNum : Int
  fRun : Int
  fDate : Int
  deriving DecidableEq, Repr

namespace EventHeader

/-- Source: `EventHeader() : fEvtNum(0), fRun(0), fDate(0) { }` -/
def new : EventHeader := { fEvtNum := 0, fRun := 0, fDate := 0 }

/-- Source: `void Set(Int_t i, Int_t r, Int_t d) { fEvtNum = i; fRun = r; fDate = d; }` -/
def Set (h : EventHeader) (i r d : Int) : EventHeader :=
  { h with fEvtNum := i, fRun := r, fDate := d }

/-- Source: `Int_t GetEvtNum() const { return fEvtNum; }` -/
def GetEvtNum (h : EventHeader) : Int := h.fEvtNum

/-- Source: `Int_t GetRun() const { return fRun; }` -/
def GetRun (h : EventHeader) : Int := h.fRun

/-- Source: `Int_t GetDate() const { return fDate; }` -/
def GetDate (h : EventHeader) : Int := h.fDate

end EventHeader

/-! ## Event -/

/-- Data members of `class Event` (the static `fgHist` belongs to no instance). -/
structure Event (R : RootTypes) where
  fType : Fin 20 → Fin 256
  /-- The string `fEventName` points to. -/
  fEventName : List (Fin 256)
  fNtrack : Int
  fNseg : Int
  fNvertex : Int
  fFlag : UInt_t
  fTemperature : R.Double32_t
  fMeasures : Fin 10 → Int
  fMatrix : Fin 4 → Fin 4 → R.Double32_t
  /-- The block `fClosestDistance` points to. -/
  fClosestDistance : List R.Double32_t
  fEvtHdr : EventHeader
  /-- The vector `fTracks` points to. -/
  fTracks : List (Track R)
  fHighPt : Option R.TRefArray
  fMuons : Option R.TRefArray
  fLastTrack : R.TRef
  fWebHistogram : R.TRef
  fH : Option R.TH1F
  fTriggerBits : R.TBits

namespace Event

variable {R : RootTypes}

/-- The assignment `m[x][y] = what` on a 4×4 array. -/
def assignCell {α : Type} (m : Fin 4 → Fin 4 → α) (x y : Fin 4) (what : α) :
    Fin 4 → Fin 4 → α :=
  fun i j => if i = x ∧ j = y then what else m i j

/-- Source: `void SetMatrix(UChar_t x, UChar_t y, Double32_t what) { if (x<3&&y<3) fMatrix[x][y]=what;}` -/
def SetMatrix (e : Event R) (x y : UChar_t) (what : R.Double32_t) : Event R :=
  if h : x.val < 3 ∧ y.val < 3 then
    { e with fMatrix :=
        assignCell e.fMatrix ⟨x.val, by omega⟩ ⟨y.val, by omega⟩ what }
  else e

/-- Modelled from the spec: `Event::SetRandomVertex()` is declared in the header
and defined elsewhere. The spec has the closest-distance array "reallocated
whenever vertex count changes", "sized to the current vertex count", and filled
afresh with random values; `draw k` stands for the k-th value drawn. Nothing
else is said to change. -/
def SetRandomVertex (draw : Nat → R.Double32_t) (e : Event R) : Event R :=
  { e with fClosestDistance := (List.range e.fNvertex.toNat).map draw }

/-- Source: `void SetNvertex(Int_t n) { fNvertex = n; SetRandomVertex(); }` -/
def SetNvertex (draw : Nat → R.Double32_t) (e : Event R) (n : Int) : Event R :=
  SetRandomVertex draw { e with fNvertex := n }

/-- Source: `Float_t GetClosestDistance(Int_t i) {return fClosestDistance[i];}` -/
def GetClosestDistance (e : Event R) (i : Int) : Access R.Float_t × Event R :=
  ((subscriptPtr e.fClosestDistance i).map R.narrow, e)

/-- Source: `Int_t GetNvertex() const { return fNvertex; }` -/
def GetNvertex (e : Event R) : Int := e.fNvertex

/-- Source: `Int_t GetMeasure(UChar_t which) { return (which<10)?fMeasures[which]:0; }` -/
def GetMeasure (e : Event R) (which : UChar_t) : Int × Event R :=
  (if h : which.val < 10 then e.fMeasures ⟨which.val, h⟩ else 0, e)

/-- Source: `Double32_t GetMatrix(UChar_t x, UChar_t y) { return (x<4&&y<4)?fMatrix[x][y]:0; }` -/
def GetMatrix (e : Event R) (x y : UChar_t) : R.Double32_t × Event R :=
  (if h : x.val < 4 ∧ y.val < 4 then e.fMatrix ⟨x.val, h.1⟩ ⟨y.val, h.2⟩
   else R.zero, e)

/-- A finite sequence of `SetMatrix` calls, applied from left to right. -/
def SetMatrixSeq (e : Event R) (calls : List (UChar_t × UChar_t × R.Double32_t)) :
    Event R :=
  calls.foldl (fun s c => SetMatrix s c.1 c.2.1 c.2.2) e

end Event

/-! ## A concrete instance, used to evaluate the definitions -/

/-- An instance of the library types in which every numeric type is `Int`. -/
abbrev IntTypes : RootTypes where
  Float_t := Int
  Double32_t := Int
  TBits := List Bool
  TRefArray := List Nat
  TRef := Option Nat
  TH1F := Unit
  zero := 0
  narrow := id

/-- A track with two point values, `7` and `9`, and vertex `(1, 2, 3)`. -/
def sampleTrack : Track IntTypes where
  fPx := 1
  fPy := 2
  fPz := 3
  fRandom := 4
  fMass2 := 5
  fBx := 6
  fBy := 7
  fMeanCharge := 8
  fXfirst := 9
  fXlast := 10
  fYfirst := 11
  fYlast := 12
  fZfirst := 13
  fZlast := 14
  fCharge := -1
  fVertex := fun k => (k.val : Int) + 1
  fNpoint := 60
  fValid := 0
  fNsp := 2
  fPointValue := [7, 9]
  fTriggerBits := [true, false]

/-- An event with two vertices, matrix cell `(i, j)` holding `10 * i + j + 1`
and measurement slot `k` holding `100 + k`. -/
def sampleEvent : Event IntTypes where
  fType := fun _ => 0
  fEventName := []
  fNtrack := 1
  fNseg := 10
  fNvertex := 2
  fFlag := 0
  fTemperature := 20
  fMeasures := fun k => 100 + (k.val : Int)
  fMatrix := fun i j => 10 * (i.val : Int) + (j.val : Int) + 1
  fClosestDistance := [4, 6]
  fEvtHdr := EventHeader.new
  fTracks := [sampleTrack]
  fHighPt := none
  fMuons := none
  fLastTrack := none
  fWebHistogram := none
  fH := none
  fTriggerBits := []

/-! ## Basic facts about subscripts and `toShort` -/

section Lemmas

variable {R : RootTypes}

theorem subscript_neg {α : Type} {n : Nat} (a : Fin n → α) (i : Int) (h : i < 0) :
    subscript a i = Access.fault := by
  unfold subscript
  rw [dif_neg]
  omega

theorem subscript_in_range {α : Type} {n : Nat} (a : Fin n → α) (k : Fin n) :
    subscript a (k.val : Int) = Access.elem (a k) := by
  unfold subscript
  have h : 0 ≤ (k.val : Int) ∧ ((k.val : Int)).toNat < n := by
    constructor
    · omega
    · simp
  rw [dif_pos h]
  congr 2

theorem subscriptPtr_neg {α : Type} (p : List α) (i : Int) (h : i < 0) :
    subscriptPtr p i = Access.fault := by
  unfold subscriptPtr
  rw [if_neg]
  omega

theorem subscriptPtr_ge {α : Type} (p : List α) (i : Int)
    (h : (p.length : Int) ≤ i) : subscriptPtr p i = Access.fault := by
  unfold subscriptPtr
  split
  · have hlen : p.length ≤ i.toNat := by omega
    rw [List.get?_eq_none.mpr hlen]
  · rfl

theorem subscriptPtr_in_range {α : Type} (p : List α) (i : Int) (h0 : 0 ≤ i)
    (h1 : i < (p.length : Int)) :
    ∃ v, p.get? i.toNat = some v ∧ subscriptPtr p i = Access.elem v := by
  have hlt : i.toNat < p.length := by omega
  refine ⟨p.get ⟨i.toNat, hlt⟩, List.get?_eq_get hlt, ?_⟩
  unfold subscriptPtr
  rw [if_pos h0, List.get?_eq_get hlt]

theorem toShort_range (v : Int) : -32768 ≤ toShort v ∧ toShort v ≤ 32767 := by
  unfold toShort
  omega

theorem toShort_congr (v : Int) : (65536 : Int) ∣ (toShort v - v) := by
  unfold toShort
  omega

theorem toShort_eq_iff (v : Int) : toShort v = v ↔ -32768 ≤ v ∧ v ≤ 32767 := by
  unfold toShort
  omega

theorem SetMatrix_of_bound (e : Event R) (x y : UChar_t) (what : R.Double32_t)
    (h : x.val < 3 ∧ y.val < 3) :
    Event.SetMatrix e x y what =
      { e with fMatrix :=
          Event.assignCell e.fMatrix ⟨x.val, by omega⟩ ⟨y.val, by omega⟩ what } := by
  unfold Event.SetMatrix
  rw [dif_pos h]

theorem SetMatrix_of_not_bound (e : Event R) (x y : UChar_t) (what : R.Double32_t)
    (h : ¬ (x.val < 3 ∧ y.val < 3)) : Event.SetMatrix e x y what = e := by
  unfold Event.SetMatrix
  rw [dif_neg h]

/-- One `SetMatrix` call leaves every cell of the last row and of the last
column as it was. -/
theorem SetMatrix_border (e : Event R) (x y : UChar_t) (what : R.Double32_t)
    (i j : Fin 4) (h : i.val = 3 ∨ j.val = 3) :
    (Event.SetMatrix e x y what).fMatrix i j = e.fMatrix i j := by
  by_cases hb : x.val < 3 ∧ y.val < 3
  · rw [SetMatrix_of_bound e x y what hb]
    show Event.assignCell e.fMatrix _ _ what i j = e.fMatrix i j
    unfold Event.assignCell
    rw [if_neg]
    rintro ⟨h1, h2⟩
    have e1 : i.val = x.val := by rw [h1]
    have e2 : j.val = y.val := by rw [h2]
    omega
  · rw [SetMatrix_of_not_bound e x y what hb]

/-- A sequence of `SetMatrix` calls leaves every cell of the last row and of the
last column as it was. -/
theorem SetMatrixSeq_border (calls : List (UChar_t × UChar_t × R.Double32_t))
    (e : Event R) (i j : Fin 4) (h : i.val = 3 ∨ j.val = 3) :
    (Event.SetMatrixSeq e calls).fMatrix i j = e.fMatrix i j := by
  induction calls generalizing e with
  | nil => rfl
  | cons c rest ih =>
    show (Event.SetMatrixSeq (Event.SetMatrix e c.1 c.2.1 c.2.2) rest).fMatrix i j
      = e.fMatrix i j
    rw [ih, SetMatrix_border e c.1 c.2.1 c.2.2 i j h]

theorem GetMatrix_of_bound (e : Event R) (x y : UChar_t)
    (h : x.val < 4 ∧ y.val < 4) :
    (Event.GetMatrix e x y).1 = e.fMatrix ⟨x.val, h.1⟩ ⟨y.val, h.2⟩ := by
  unfold Event.GetMatrix
  simp only [dif_pos h]

theorem GetMatrix_of_not_bound (e : Event R) (x y : UChar_t)
    (h : ¬ (x.val < 4 ∧ y.val < 4)) : (Event.GetMatrix e x y).1 = R.zero := by
  unfold Event.GetMatrix
  simp only [dif_neg h]

/-- An index at or above `fNsp` is answered with zero, without reading. -/
theorem GetPointValue_of_ge (t : Track R) (i : Int) (h : t.fNsp ≤ i) :
    Track.GetPointValue t i = Access.const R.zero := by
  unfold Track.GetPointValue
  rw [if_neg]
  omega

/-- An index inside `[0, fNsp)` reads the stored element. -/
theorem GetPointValue_in_range (t : Track R) (i : Int)
    (hlen : (t.fPointValue.length : Int) = t.fNsp) (h0 : 0 ≤ i) (h1 : i < t.fNsp) :
    ∃ v, t.fPointValue.get? i.toNat = some v ∧
      Track.GetPointValue t i = Access.elem v := by
  unfold Track.GetPointValue
  rw [if_pos h1]
  exact subscriptPtr_in_range t.fPointValue i h0 (by omega)

/-- A negative index passes the guard `i<fNsp` of a track with `fNsp ≥ 0` and
subscripts the array below its first element. -/
theorem GetPointValue_of_neg (t : Track R) (i : Int) (hN : 0 ≤ t.fNsp) (h : i < 0) :
    Track.GetPointValue t i = Access.fault := by
  unfold Track.GetPointValue
  rw [if_pos (by omega)]
  exact subscriptPtr_neg t.fPointValue i h

/-- An index at or above 3 is answered with zero, without reading. -/
theorem GetVertex_of_ge (t : Track R) (i : Int) (h : 3 ≤ i) :
    Track.GetVertex t i = (Access.const R.zero, t) := by
  unfold Track.GetVertex
  rw [if_neg]
  omega

/-- An index inside `[0, 3)` reads `fVertex[i]`. -/
theorem GetVertex_in_range (t : Track R) (k : Fin 3) :
    Track.GetVertex t (k.val : Int) = (Access.elem (t.fVertex k), t) := by
  unfold Track.GetVertex
  rw [if_pos (by omega), subscript_in_range]

/-- A negative index passes the guard `i<3` and subscripts the array below its
first element. -/
theorem GetVertex_of_neg (t : Track R) (i : Int) (h : i < 0) :
    Track.GetVertex t i = (Access.fault, t) := by
  unfold Track.GetVertex
  rw [if_pos (by omega), subscript_neg t.fVertex i h]

/-- The accessor `GetClosestDistance(i)` is an unchecked subscript. With an
array of `fNvertex` elements, an index in `[0, fNvertex)` reads the stored
element (converted to `Float_t`), an index outside is subscripted all the same,
outside the array, and the Event is left as it was. -/
theorem GetClosestDistance_of_length (e : Event R) (i : Int)
    (hlen : (e.fClosestDistance.length : Int) = e.fNvertex) :
    (0 ≤ i ∧ i < e.fNvertex →
      ∃ v, e.fClosestDistance.get? i.toNat = some v ∧
        (Event.GetClosestDistance e i).1 = Access.elem (R.narrow v)) ∧
    (¬ (0 ≤ i ∧ i < e.fNvertex) →
      (Event.GetClosestDistance e i).1 = Access.fault) ∧
    (Event.GetClosestDistance e i).2 = e := by
  refine ⟨fun h => ?_, fun h => ?_, rfl⟩
  · obtain ⟨v, hv, hsub⟩ :=
      subscriptPtr_in_range e.fClosestDistance i h.1 (by omega)
    refine ⟨v, hv, ?_⟩
    show (subscriptPtr e.fClosestDistance i).map R.narrow = _
    rw [hsub]
    rfl
  · show (subscriptPtr e.fClosestDistance i).map R.narrow = _
    by_cases h0 : i < 0
    · rw [subscriptPtr_neg _ i h0]
      rfl
    · rw [subscriptPtr_ge _ i (by omega)]
      rfl

end Lemmas

/-! ## The claims -/

section Claims

variable {R : RootTypes}

/-- C1: for every Event state, every pair of 8-bit indices with `x ≥ 3` or
`y ≥ 3` and every value, `SetMatrix(x, y, v)` returns the Event it was given:
all 16 matrix cells and every other field are unchanged. -/
theorem SetMatrix_outside_bound_is_noop (e : Event R) (x y : UChar_t)
    (v : R.Double32_t) (h : 3 ≤ x.val ∨ 3 ≤ y.val) :
    Event.SetMatrix e x y v = e ∧
      ∀ i j : Fin 4, (Event.SetMatrix e x y v).fMatrix i j = e.fMatrix i j := by
  have hb : ¬ (x.val < 3 ∧ y.val < 3) := by omega
  have heq := SetMatrix_of_not_bound e x y v hb
  exact ⟨heq, fun i j => by rw [heq]⟩

/-- The call `SetMatrix(3, 0, 5)` on the sample event changes nothing. -/
theorem SetMatrix_outside_bound_is_noop_witness :
    (3 ≤ (3 : UChar_t).val ∨ 3 ≤ (0 : UChar_t).val) ∧
      Event.SetMatrix sampleEvent 3 0 5 = sampleEvent :=
  ⟨by decide, (SetMatrix_outside_bound_is_noop sampleEvent 3 0 5 (by decide)).1⟩

/-- C3: `GetMeasure(which)` returns 0 for every `which` in 10..255, returns
`fMeasures[which]` for every `which` below 10, and in both cases leaves the
Event as it was. -/
theorem GetMeasure_bounds_checked (e : Event R) (which : UChar_t) :
    (10 ≤ which.val → (Event.GetMeasure e which).1 = 0) ∧
    (∀ h : which.val < 10,
      (Event.GetMeasure e which).1 = e.fMeasures ⟨which.val, h⟩) ∧
    (Event.GetMeasure e which).2 = e := by
  refine ⟨fun h => ?_, fun h => ?_, rfl⟩
  · unfold Event.GetMeasure
    simp only [dif_neg (show ¬ which.val < 10 by omega)]
  · unfold Event.GetMeasure
    simp only [dif_pos h]

/-- On the sample event slot 200 reads 0 and slot 4 reads the stored 104. -/
theorem GetMeasure_bounds_checked_witness :
    10 ≤ (200 : UChar_t).val ∧ (4 : UChar_t).val < 10 ∧
      (Event.GetMeasure sampleEvent 200).1 = 0 ∧
      (Event.GetMeasure sampleEvent 4).1 = 104 ∧
      (Event.GetMeasure sampleEvent 200).2 = sampleEvent :=
  ⟨by decide, by decide,
    (GetMeasure_bounds_checked sampleEvent 200).1 (by decide),
    ((GetMeasure_bounds_checked sampleEvent 4).2.1 (by decide)).trans (by decide),
    (GetMeasure_bounds_checked sampleEvent 200).2.2⟩

/-- C4: for `x < 3` and `y < 3`, after `SetMatrix(x, y, v)` the call
`GetMatrix(x, y)` returns `v`, and `GetMatrix(x', y')` for every other pair
of indices returns what it returned before. -/
theorem SetMatrix_then_GetMatrix (e : Event R) (x y : UChar_t) (v : R.Double32_t)
    (hx : x.val < 3) (hy : y.val < 3) :
    (Event.GetMatrix (Event.SetMatrix e x y v) x y).1 = v ∧
      ∀ x' y' : UChar_t, (x', y') ≠ (x, y) →
        (Event.GetMatrix (Event.SetMatrix e x y v) x' y').1 =
          (Event.GetMatrix e x' y').1 := by
  have hs := SetMatrix_of_bound e x y v ⟨hx, hy⟩
  constructor
  · rw [GetMatrix_of_bound _ x y ⟨by omega, by omega⟩, hs]
    show Event.assignCell e.fMatrix _ _ v _ _ = v
    unfold Event.assignCell
    rw [if_pos ⟨rfl, rfl⟩]
  · intro x' y' hne
    by_cases hb : x'.val < 4 ∧ y'.val < 4
    · rw [GetMatrix_of_bound _ x' y' hb, GetMatrix_of_bound e x' y' hb, hs]
      show Event.assignCell e.fMatrix _ _ v _ _ = _
      unfold Event.assignCell
      rw [if_neg]
      rintro ⟨h1, h2⟩
      apply hne
      have e1 : x'.val = x.val := Fin.mk.inj_iff.mp h1
      have e2 : y'.val = y.val := Fin.mk.inj_iff.mp h2
      rw [Fin.ext e1, Fin.ext e2]
    · rw [GetMatrix_of_not_bound _ x' y' hb, GetMatrix_of_not_bound e x' y' hb]

/-- On the sample event, writing 50 at (1, 2) is read back, and cell (2, 1)
still reads its old 22. -/
theorem SetMatrix_then_GetMatrix_witness :
    (1 : UChar_t).val < 3 ∧ (2 : UChar_t).val < 3 ∧
      (Event.GetMatrix (Event.SetMatrix sampleEvent 1 2 50) 1 2).1 = 50 ∧
      (Event.GetMatrix (Event.SetMatrix sampleEvent 1 2 50) 2 1).1 = 22 :=
  ⟨by decide, by decide,
    (SetMatrix_then_GetMatrix sampleEvent 1 2 50 (by decide) (by decide)).1,
    ((SetMatrix_then_GetMatrix sampleEvent 1 2 50 (by decide) (by decide)).2 2 1
      (by decide)).trans (by decide)⟩

/-- C5: after `Set(num, run, date)` the three getters return `num`, `run` and
`date` whatever the header held before (the result does not depend on the old
header at all), and a default-constructed header reads 0 three times. -/
theorem EventHeader_Set_overwrites (h : EventHeader) (num run date : Int) :
    EventHeader.GetEvtNum (EventHeader.Set h num run date) = num ∧
    EventHeader.GetRun (EventHeader.Set h num run date) = run ∧
    EventHeader.GetDate (EventHeader.Set h num run date) = date ∧
    EventHeader.Set h num run date =
      { fEvtNum := num, fRun := run, fDate := date } ∧
    EventHeader.GetEvtNum EventHeader.new = 0 ∧
    EventHeader.GetRun EventHeader.new = 0 ∧
    EventHeader.GetDate EventHeader.new = 0 :=
  ⟨rfl, rfl, rfl, rfl, rfl, rfl, rfl⟩

/-- C7 (against the spec's description of `SetRandomVertex`): for `n ≥ 0`,
after `SetNvertex(n)` the getter `GetNvertex()` returns `n` and the
closest-distance array has exactly `n` elements. -/
theorem SetNvertex_sizes_array (draw : Nat → R.Double32_t) (e : Event R) (n : Int)
    (hn : 0 ≤ n) :
    Event.GetNvertex (Event.SetNvertex draw e n) = n ∧
      ((Event.SetNvertex draw e n).fClosestDistance.length : Int) = n := by
  constructor
  · rfl
  · show (((List.range n.toNat).map draw).length : Int) = n
    rw [List.length_map, List.length_range]
    exact Int.toNat_of_nonneg hn

/-- Setting three vertices on the sample event (which had two) gives count 3
and an array of 3 elements. -/
theorem SetNvertex_sizes_array_witness :
    (0 : Int) ≤ 3 ∧
      Event.GetNvertex (Event.SetNvertex (fun k => (k : Int)) sampleEvent 3) = 3 ∧
      ((Event.SetNvertex (fun k => (k : Int)) sampleEvent 3).fClosestDistance.length
        : Int) = 3 :=
  ⟨by decide,
    SetNvertex_sizes_array (fun k => (k : Int)) sampleEvent 3 (by decide)⟩

/-- C9: a cell `(x, y)` of the 4×4 matrix with `x = 3` or `y = 3` holds its
initial value after any finite sequence of `SetMatrix` calls, a `SetMatrix`
call aimed at it changes nothing, and yet `GetMatrix(x, y)` reads it, before
and after; there are seven such cells. -/
theorem border_cells_read_never_written (e : Event R)
    (calls : List (UChar_t × UChar_t × R.Double32_t)) (x y : UChar_t)
    (hx : x.val < 4) (hy : y.val < 4) (h : x.val = 3 ∨ y.val = 3) :
    (Event.SetMatrixSeq e calls).fMatrix ⟨x.val, hx⟩ ⟨y.val, hy⟩ =
      e.fMatrix ⟨x.val, hx⟩ ⟨y.val, hy⟩ ∧
    (Event.GetMatrix (Event.SetMatrixSeq e calls) x y).1 =
      e.fMatrix ⟨x.val, hx⟩ ⟨y.val, hy⟩ ∧
    (Event.GetMatrix e x y).1 = e.fMatrix ⟨x.val, hx⟩ ⟨y.val, hy⟩ ∧
    (∀ v : R.Double32_t, Event.SetMatrix e x y v = e) ∧
    (Finset.univ.filter
      (fun p : Fin 4 × Fin 4 => p.1.val = 3 ∨ p.2.val = 3)).card = 7 := by
  have hseq := SetMatrixSeq_border calls e ⟨x.val, hx⟩ ⟨y.val, hy⟩ h
  refine ⟨hseq, ?_, GetMatrix_of_bound e x y ⟨hx, hy⟩, fun v => ?_, by decide⟩
  · rw [GetMatrix_of_bound _ x y ⟨hx, hy⟩, hseq]
  · exact SetMatrix_of_not_bound e x y v (by omega)

/-- On the sample event, cell (3, 1) reads 32 after three `SetMatrix` calls,
two of which are aimed at the last row. -/
theorem border_cells_read_never_written_witness :
    (3 : UChar_t).val < 4 ∧ (1 : UChar_t).val < 4 ∧
      ((3 : UChar_t).val = 3 ∨ (1 : UChar_t).val = 3) ∧
      (Event.GetMatrix
        (Event.SetMatrixSeq sampleEvent [(3, 1, 70), (1, 1, 80), (3, 3, 90)]) 3 1).1
        = 32 ∧
      (Event.GetMatrix sampleEvent 3 1).1 = 32 :=
  ⟨by decide, by decide, by decide,
    ((border_cells_read_never_written sampleEvent [(3, 1, 70), (1, 1, 80), (3, 3, 90)]
      3 1 (by decide) (by decide) (by decide)).2.1).trans (by decide),
    by decide⟩

/-- C10: after `SetValid(v)` the getter `GetValid()` returns the value in
`[-32768, 32767]` congruent to `v` modulo `2^16`; it equals `v` exactly when `v`
is in that range; the default call `SetValid()` gives 1; and `SetValid` changes
no field other than `fValid`. -/
theorem SetValid_narrows_to_short (t : Track R) (v : Int) :
    -32768 ≤ Track.GetValid (Track.SetValid t v) ∧
    Track.GetValid (Track.SetValid t v) ≤ 32767 ∧
    (65536 : Int) ∣ (Track.GetValid (Track.SetValid t v) - v) ∧
    (Track.GetValid (Track.SetValid t v) = v ↔ -32768 ≤ v ∧ v ≤ 32767) ∧
    Track.GetValid (Track.SetValidDefault t) = 1 ∧
    Track.SetValid t v = { t with fValid := Track.GetValid (Track.SetValid t v) } :=
  ⟨(toShort_range v).1, (toShort_range v).2, toShort_congr v, toShort_eq_iff v,
    rfl, rfl⟩

/-- C2, at the failing input: the sample track has `GetN() = 2` and a
point-value array of two elements; `GetPointValue(-1)` passes the guard
`-1 < 2` and subscripts the array at -1, outside it, instead of answering zero
without a read. Indices at or above `GetN()` are answered with zero. -/
theorem GetPointValue_negative_index_reads_outside :
    Track.GetN sampleTrack = 2 ∧ sampleTrack.fPointValue.length = 2 ∧
    Track.GetPointValue sampleTrack (-1) = Access.fault ∧
    Track.GetPointValue sampleTrack (-1) ≠ Access.const IntTypes.zero ∧
    Track.GetPointValue sampleTrack 2 = Access.const IntTypes.zero ∧
    Track.GetPointValue sampleTrack 1 = Access.elem 9 := by
  refine ⟨rfl, rfl, ?_, ?_, ?_, ?_⟩ <;> decide

/-- C8, at the failing input: `GetVertex(-1)` on the sample track passes the
guard `-1 < 3` and subscripts the 3-element vertex array at -1, outside it,
instead of answering zero without a read. Index 3 is answered with zero and
index 2 reads `fVertex[2]`. -/
theorem GetVertex_negative_index_reads_outside :
    (Track.GetVertex sampleTrack (-1)).1 = Access.fault ∧
    (Track.GetVertex sampleTrack (-1)).1 ≠ Access.const IntTypes.zero ∧
    (Track.GetVertex sampleTrack 3).1 = Access.const IntTypes.zero ∧
    (Track.GetVertex sampleTrack 2).1 = Access.elem (sampleTrack.fVertex 2) := by
  refine ⟨?_, ?_, ?_, ?_⟩ <;> decide

/-- C6, at the failing input: the sample event's closest-distance array has
`fNvertex = 2` elements, index 2 is outside `[0, 2)`, and
`GetClosestDistance(2)` subscripts the array there rather than answering zero
without a read; the same holds for index -1. -/
theorem GetClosestDistance_not_bounds_checked :
    ((sampleEvent.fClosestDistance.length : Int) = sampleEvent.fNvertex ∧
      ¬ (0 ≤ (2 : Int) ∧ (2 : Int) < sampleEvent.fNvertex)) ∧
    (Event.GetClosestDistance sampleEvent 2).1 = Access.fault ∧
    (Event.GetClosestDistance sampleEvent 2).1 ≠
      Access.const (IntTypes.narrow IntTypes.zero) ∧
    (Event.GetClosestDistance sampleEvent (-1)).1 = Access.fault := by
  refine ⟨⟨?_, ?_⟩, ?_, ?_, ?_⟩ <;> decide

end Claims

end EventH
